import Mathlib

/-!
Shallow embedding of mapguard (src/src/mapguard.c) and verification of the
frozen specification claims.

Modelling conventions:
* Pointers (`void *`) and machine integers (`size_t`, `uintptr_t`) are `Nat`,
  with arithmetic reduced `% 2^64` wherever the C arithmetic can wrap.
  `MAP_FAILED` is `(void *)-1`, i.e. `2^64 - 1`; the null pointer is `0`.
* The "real" libc primitives (`g_real_mmap`, `g_real_munmap`,
  `g_real_mprotect`, `g_real_mremap`) are resolved with `dlsym` at load time
  and are external to the program; they are modelled as an oracle
  environment `Env` of pure functions from call arguments to results.
  `g_page_size` (`getpagesize()`) lives in the same environment.
* The mapping cache `g_map_cache_vector` is a `List MCE`; pointer mutation
  of a cache entry becomes replacement of the entry at its position.
* `abort()` (the `MAYBE_PANIC` macro) terminates the process; a hook result
  records this in a `panicked` flag, and the remaining output fields hold
  the state at the moment of the abort.
* Memory byte contents are not modelled (the `memset` poison fill and the
  `memcpy` of the MPK extension have no observable effect on the mapping
  store or on hook results).
* Each hook output additionally records the calls made to the real
  primitives (counts, and for `munmap` the argument list), so that
  "the real primitive is not invoked" is a provable statement.
-/

namespace Mapguard

/-- Word width of the target: all pointer arithmetic is modulo `2^64`. -/
def W64 : Nat := 2 ^ 64

/-- `MAP_FAILED = (void *)-1`. -/
def MAP_FAILED : Nat := W64 - 1

def PROT_NONE : Nat := 0
def PROT_READ : Nat := 1
def PROT_WRITE : Nat := 2
def PROT_EXEC : Nat := 4

def MAP_PRIVATE : Nat := 2
def MAP_ANONYMOUS : Nat := 32

/-- `EINVAL` on Linux. -/
def EINVAL : Nat := 22

/-- `#define ERROR -1` (mapguard.h). -/
def ERROR : Int := -1

/-- Address addition, wrapping as 64-bit pointer arithmetic does. -/
def add64 (a b : Nat) : Nat := (a + b) % W64

/-- Address subtraction, wrapping as 64-bit pointer arithmetic does. -/
def sub64 (a b : Nat) : Nat := (a + (W64 - b % W64)) % W64

/-- The policy switches of `mapguard_policy_t`, set once from environment
variables in `mapguard_ctor` (each `uint8_t` flag is 0 or 1, hence `Bool`).
`enable_syslog` only gates logging and is omitted. -/
structure Policy where
  disallow_rwx : Bool
  disallow_transition_to_x : Bool
  disallow_transition_from_x : Bool
  disallow_static_address : Bool
  enable_guard_pages : Bool
  panic_on_violation : Bool
  poison_on_allocation : Bool
  use_mapping_cache : Bool
deriving Repr, DecidableEq

/-- `mapguard_cache_entry_t` as used by mapguard.c: `start`, `size`,
`immutable_prot`, `current_prot`, `cache_index`, `guard_bottom`,
`guard_top`, and the MPK field `xom_enabled` that the `mprotect` hook
reads. Pointer fields hold the raw pointer value (`0` = NULL). The MPK-only
fields `pkey`/`pkey_access_rights` are never read by the hooked paths and
are omitted. -/
structure MCE where
  start : Nat
  size : Nat
  immutable_prot : Nat
  current_prot : Nat
  cache_index : Nat
  guard_bottom : Nat
  guard_top : Nat
  xom_enabled : Nat
deriving Repr, DecidableEq

instance : Inhabited MCE := ⟨⟨0, 0, 0, 0, 0, 0, 0, 0⟩⟩

/-- `new_mapguard_cache_entry`: `malloc` + `memset 0`, so every field is 0. -/
def new_mapguard_cache_entry : MCE := ⟨0, 0, 0, 0, 0, 0, 0, 0⟩

/-- The external world: `g_page_size` and the `dlsym`-resolved real
primitives, as pure oracles from call arguments to the value each call
returns. -/
structure Env where
  page_size : Nat
  real_mmap : Nat → Nat → Nat → Nat → Int → Nat → Nat
  real_munmap : Nat → Nat → Int
  real_mprotect : Nat → Nat → Nat → Int
  real_mremap : Nat → Nat → Nat → Nat → Nat

/-- `get_base_page`: `addr & ~(g_page_size-1)`; for the power-of-two page
size this is rounding down to a page boundary. -/
def get_base_page (env : Env) (addr : Nat) : Nat :=
  addr - addr % env.page_size

/-- `ROUND_UP_PAGE(N) = (((N) + (g_page_size) - 1) / (g_page_size)) * (g_page_size)`,
computed in `uint64_t`. -/
def round_up_page (env : Env) (n : Nat) : Nat :=
  (add64 n (env.page_size - 1) / env.page_size * env.page_size) % W64

/-- `is_mapguard_entry_cached`: the lookup callback. The C returns the
entry pointer (truthy) on a match and NULL otherwise; here the match
condition itself. -/
def is_mapguard_entry_cached (mce : MCE) (data : Nat) : Bool :=
  if mce.start = data then true
  else if data > mce.start ∧ add64 mce.start mce.size > data then true
  else false

/-- Modelled from the spec: the Mapping Store's backing container
`vector_t` is declared in `../vector_t/vector.h` and is not among this
repository's sources; §4.1 specifies `findByAddress(addr)` as a linear
predicate scan returning a record whose range contains `addr`. This is
`vector_for_each` applied to the `is_mapguard_entry_cached` callback:
the first entry, in storage order, that matches `data`. -/
def find_cached (v : List MCE) (data : Nat) : Option MCE :=
  match v with
  | [] => none
  | m :: rest => if is_mapguard_entry_cached m data then some m else find_cached rest data

/-- Replacement of the first entry matching `data` — the model of the C
code mutating, through the pointer returned by the lookup, the entry that
`find_cached` found. -/
def update_cached (v : List MCE) (data : Nat) (f : MCE → MCE) : List MCE :=
  match v with
  | [] => []
  | m :: rest =>
    if is_mapguard_entry_cached m data then f m :: rest else m :: update_cached rest data f

/-- Modelled from the spec: `vector_push` of the out-of-scope `vector_t`
container; §4.1 `insert(record) -> index` appends the record and returns
its index, i.e. the store's size before the push. -/
def vector_push (v : List MCE) (m : MCE) : List MCE × Nat :=
  (v ++ [m], v.length)

/-- Modelled from the spec: `vector_delete_at` of the out-of-scope
`vector_t` container; §4.1: "Removal at an index … the original uses
swap-with-last/compaction semantics". The last element is moved into the
vacated slot and the vector shrinks by one; an out-of-range index is a
no-op. -/
def vector_delete_at (v : List MCE) (i : Nat) : List MCE :=
  if i < v.length then
    if i + 1 = v.length then v.dropLast
    else (v.set i (v.getLast?.getD default)).dropLast
  else v

/-- `map_guard_page`: one real `mmap` of a `PROT_NONE` anonymous private
page at the page base of `addr`. -/
def map_guard_page (env : Env) (addr : Nat) : Nat :=
  env.real_mmap (get_base_page env addr) env.page_size PROT_NONE
    (MAP_ANONYMOUS ||| MAP_PRIVATE) (-1) 0

/-- `map_bottom_guard_page` (non-NULL entry): stores the raw result of the
guard `mmap` — `MAP_FAILED` included — into `guard_bottom`. The C passes
`get_base_page(mce->start - 1)`; `mce->start - 1` wraps as pointer
arithmetic. -/
def map_bottom_guard_page (env : Env) (mce : MCE) : MCE :=
  { mce with guard_bottom := map_guard_page env (get_base_page env (sub64 mce.start 1)) }

/-- `map_top_guard_page` (non-NULL entry): stores the raw result of the
guard `mmap` into `guard_top`, at `ROUND_UP_PAGE(start + size)`. -/
def map_top_guard_page (env : Env) (mce : MCE) : MCE :=
  { mce with guard_top := map_guard_page env (round_up_page env (add64 mce.start mce.size)) }

/-- `map_guard_pages`: skip when `start == 0 && size != 0`, otherwise map
the bottom then the top guard page. Returns the updated entry and the
number of real `mmap` calls issued. -/
def map_guard_pages (env : Env) (mce : MCE) : MCE × Nat :=
  if mce.start = 0 ∧ mce.size ≠ 0 then (mce, 0)
  else (map_top_guard_page env (map_bottom_guard_page env mce), 2)

/-- `unmap_top_guard_page`: real `munmap(guard_top, g_page_size)` when
`guard_top` is non-NULL, otherwise nothing. The entry itself is returned
as the C leaves it (the field is not modified). The second component is
the list of `(addr, length)` arguments of the real `munmap` calls made. -/
def unmap_top_guard_page (env : Env) (mce : MCE) : MCE × List (Nat × Nat) :=
  if mce.guard_top ≠ 0 then (mce, [(mce.guard_top, env.page_size)]) else (mce, [])

/-- `unmap_bottom_guard_page`: symmetric to `unmap_top_guard_page`. -/
def unmap_bottom_guard_page (env : Env) (mce : MCE) : MCE × List (Nat × Nat) :=
  if mce.guard_bottom ≠ 0 then (mce, [(mce.guard_bottom, env.page_size)]) else (mce, [])

/-- `unmap_guard_pages`: bottom, then top. -/
def unmap_guard_pages (env : Env) (mce : MCE) : MCE × List (Nat × Nat) :=
  let b := unmap_bottom_guard_page env mce
  let t := unmap_top_guard_page env b.1
  (t.1, b.2 ++ t.2)

/-- Result of the `mmap` hook: the returned pointer, the mapping cache
afterwards, whether `MAYBE_PANIC` aborted, and how many real `mmap` calls
were issued (primary plus guard pages). -/
structure MmapOut where
  result : Nat
  store : List MCE
  panicked : Bool
  real_mmap_calls : Nat
deriving Repr, DecidableEq

/-- The `mmap` hook (mapguard.c lines 142-198). File-backed requests
(`fd != -1`) are passed through untracked. Anonymous requests are checked
against disallow-RWX and disallow-static-address before the real call; on
success of the real call a cache entry is pushed (when caching is on) and
guard pages are placed (when enabled). The poison `memset` touches only
memory contents, which are outside the model. -/
def mmap (env : Env) (pol : Policy) (store : List MCE)
    (addr length prot flags : Nat) (fd : Int) (offset : Nat) : MmapOut :=
  if fd ≠ -1 then
    ⟨env.real_mmap addr length prot flags fd offset, store, false, 1⟩
  else if pol.disallow_rwx = true ∧ prot &&& PROT_WRITE ≠ 0 ∧ prot &&& PROT_EXEC ≠ 0 then
    if pol.panic_on_violation = true then ⟨MAP_FAILED, store, true, 0⟩
    else ⟨MAP_FAILED, store, false, 0⟩
  else if addr ≠ 0 ∧ pol.disallow_static_address = true then
    if pol.panic_on_violation = true then ⟨MAP_FAILED, store, true, 0⟩
    else ⟨MAP_FAILED, store, false, 0⟩
  else
    let map_ptr := env.real_mmap addr length prot flags fd offset
    if map_ptr = MAP_FAILED then ⟨map_ptr, store, false, 1⟩
    else if pol.use_mapping_cache = true then
      let mce0 := new_mapguard_cache_entry
      let mce1 : MCE := { mce0 with
        start := map_ptr
        size := length
        immutable_prot := mce0.immutable_prot ||| prot
        current_prot := prot
        cache_index := (vector_push store mce0).2 }
      if pol.enable_guard_pages = true then
        let g := map_guard_pages env mce1
        ⟨map_ptr, store ++ [g.1], false, 1 + g.2⟩
      else
        ⟨map_ptr, store ++ [mce1], false, 1⟩
    else
      ⟨map_ptr, store, false, 1⟩

/-- Result of the `munmap` hook: the returned status, the cache
afterwards, the `(addr, length)` arguments of every real `munmap` call in
order, and the number of real `mmap` calls (guard re-placement). -/
structure MunmapOut where
  result : Int
  store : List MCE
  munmap_calls : List (Nat × Nat)
  real_mmap_calls : Nat
deriving Repr, DecidableEq

/-- The `munmap` hook (mapguard.c lines 201-254). With caching on and a
covering entry found: a partial unmap first shrinks `size`, then the
tail case re-homes the top guard around the real call and the prefix case
advances `start` and re-homes the bottom guard; neither-case falls through
to the plain real unmap (with `size` already shrunk). An exact match
unmaps both guard pages, deletes the entry at its `cache_index`, frees it,
and falls through to the real unmap. -/
def munmap (env : Env) (pol : Policy) (store : List MCE)
    (addr length : Nat) : MunmapOut :=
  if pol.use_mapping_cache = true then
    match find_cached store addr with
    | some mce =>
      if mce.start ≠ addr ∨ mce.size ≠ length then
        let mce1 : MCE := { mce with size := sub64 mce.size length }
        if addr > mce1.start ∧ length < mce1.size then
          let u := unmap_top_guard_page env mce1
          let ret := env.real_munmap addr length
          let mce2 := if ret = 0 then map_top_guard_page env u.1 else u.1
          ⟨ret, update_cached store addr fun _ => mce2,
            u.2 ++ [(addr, length)], if ret = 0 then 1 else 0⟩
        else if mce1.start = addr then
          let u := unmap_bottom_guard_page env mce1
          let mce2 : MCE := { u.1 with start := add64 u.1.start length }
          let ret := env.real_munmap addr length
          let mce3 := if ret = 0 then map_bottom_guard_page env mce2 else mce2
          ⟨ret, update_cached store addr fun _ => mce3,
            u.2 ++ [(addr, length)], if ret = 0 then 1 else 0⟩
        else
          ⟨env.real_munmap addr length, update_cached store addr fun _ => mce1,
            [(addr, length)], 0⟩
      else
        let u := unmap_guard_pages env mce
        ⟨env.real_munmap addr length, vector_delete_at store mce.cache_index,
          u.2 ++ [(addr, length)], 0⟩
    | none => ⟨env.real_munmap addr length, store, [(addr, length)], 0⟩
  else ⟨env.real_munmap addr length, store, [(addr, length)], 0⟩

/-- Result of the `mprotect` hook: the returned status, the cache
afterwards, the abort flag, the value the hook assigned to `errno`
(`none` when the hook did not touch `errno`), and the number of real
`mprotect` calls issued. -/
structure MprotectOut where
  result : Int
  store : List MCE
  panicked : Bool
  errno_set : Option Nat
  real_mprotect_calls : Nat
deriving Repr, DecidableEq

/-- The `mprotect` hook (mapguard.c lines 257-303). The disallow-RWX check
runs first (no `errno` assignment on that path); with caching on, a
covering non-XOM entry is then checked against the two transition rules
(these set `errno = EINVAL`, after `MAYBE_PANIC`). Otherwise the real
call is made and, on its success, the found entry's protections are
updated (`immutable_prot |= prot; current_prot = prot`), a size mismatch
being logged but ignored. -/
def mprotect (env : Env) (pol : Policy) (store : List MCE)
    (addr len prot : Nat) : MprotectOut :=
  if pol.disallow_rwx = true ∧ prot &&& PROT_WRITE ≠ 0 ∧ prot &&& PROT_EXEC ≠ 0 then
    if pol.panic_on_violation = true then ⟨ERROR, store, true, none, 0⟩
    else ⟨ERROR, store, false, none, 0⟩
  else
    match (if pol.use_mapping_cache = true then find_cached store addr else none) with
    | some mce =>
      if mce.xom_enabled = 0 ∧ pol.disallow_transition_to_x = true ∧
          prot &&& PROT_EXEC ≠ 0 ∧ mce.immutable_prot &&& PROT_WRITE ≠ 0 then
        if pol.panic_on_violation = true then ⟨ERROR, store, true, none, 0⟩
        else ⟨ERROR, store, false, some EINVAL, 0⟩
      else if mce.xom_enabled = 0 ∧ pol.disallow_transition_from_x = true ∧
          prot &&& PROT_WRITE ≠ 0 ∧ mce.immutable_prot &&& PROT_EXEC ≠ 0 then
        if pol.panic_on_violation = true then ⟨ERROR, store, true, none, 0⟩
        else ⟨ERROR, store, false, some EINVAL, 0⟩
      else
        let ret := env.real_mprotect addr len prot
        if ret = 0 then
          ⟨ret, update_cached store addr fun m =>
            { m with immutable_prot := m.immutable_prot ||| prot, current_prot := prot },
            false, none, 1⟩
        else ⟨ret, store, false, none, 1⟩
    | none =>
      ⟨env.real_mprotect addr len prot, store, false, none, 1⟩

/-- Result of the `mremap` hook: the returned pointer, the cache
afterwards, the real `munmap` calls issued (guard removal), and the number
of real `mmap` calls issued (guard re-placement). -/
structure MremapOut where
  result : Nat
  store : List MCE
  munmap_calls : List (Nat × Nat)
  real_mmap_calls : Nat
deriving Repr, DecidableEq

/-- The `mremap` hook (mapguard.c lines 306-325). The real call always
runs first. With caching on, a covering entry that has at least one
guard-page field set (the C tests `guard_bottom || guard_top`, with either
possibly NULL) and a successful real call: both guard addresses are passed
to the real `munmap` unconditionally, `start`/`size` are updated to the
new values, and guard pages are re-placed. Otherwise the cache is left
untouched. -/
def mremap (env : Env) (pol : Policy) (store : List MCE)
    (addr old_len new_len flags : Nat) : MremapOut :=
  let map_ptr := env.real_mremap addr old_len new_len flags
  if pol.use_mapping_cache = true then
    match find_cached store addr with
    | some mce =>
      if (mce.guard_bottom ≠ 0 ∨ mce.guard_top ≠ 0) ∧ map_ptr ≠ MAP_FAILED then
        let mce1 : MCE := { mce with start := map_ptr, size := new_len }
        let g := map_guard_pages env mce1
        ⟨map_ptr, update_cached store addr fun _ => g.1,
          [(mce.guard_bottom, env.page_size), (mce.guard_top, env.page_size)], g.2⟩
      else ⟨map_ptr, store, [], 0⟩
    | none => ⟨map_ptr, store, [], 0⟩
  else ⟨map_ptr, store, [], 0⟩

/-! ### Concrete oracle environments used by witnesses and counterexamples -/

/-- An environment whose real primitives all succeed: `mmap` returns
`0x100000`, `munmap`/`mprotect` return 0, `mremap` returns `0x200000`. -/
def envOk : Env :=
  ⟨4096, fun _ _ _ _ _ _ => 1048576, fun _ _ => 0, fun _ _ _ => 0, fun _ _ _ _ => 2097152⟩

/-- An environment where guard-page `mmap` calls (`PROT_NONE`, i.e.
`prot = 0`) fail with `MAP_FAILED` while every other `mmap` succeeds. -/
def envGuardFail : Env :=
  ⟨4096, fun _ _ prot _ _ _ => if prot = 0 then MAP_FAILED else 1048576,
    fun _ _ => 0, fun _ _ _ => 0, fun _ _ _ _ => 2097152⟩

/-- An environment whose real `munmap` always fails with -1. -/
def envMunmapFail : Env :=
  ⟨4096, fun _ _ _ _ _ _ => 1048576, fun _ _ => -1, fun _ _ _ => 0, fun _ _ _ _ => 2097152⟩

/-- An environment whose real `mmap` always fails with `MAP_FAILED`. -/
def envMmapFail : Env :=
  ⟨4096, fun _ _ _ _ _ _ => MAP_FAILED, fun _ _ => 0, fun _ _ _ => 0, fun _ _ _ _ => 2097152⟩

/-! ### C1 -/

/-- C1: for an anonymous Create (`fd = -1`) requesting write+execute
permissions while disallow-RWX is enabled (and panic-on-violation is not
configured, so that the call returns at all), the `mmap` hook returns
`MAP_FAILED`, issues no real `mmap` call, and leaves the mapping store
unchanged — in particular no record is inserted and the store size is
unchanged. -/
theorem c1_rwx_create_denied (env : Env) (pol : Policy) (store : List MCE)
    (addr length prot flags offset : Nat)
    (hrwx : pol.disallow_rwx = true)
    (hw : prot &&& PROT_WRITE ≠ 0) (hx : prot &&& PROT_EXEC ≠ 0)
    (hpanic : pol.panic_on_violation = false) :
    (mmap env pol store addr length prot flags (-1) offset).result = MAP_FAILED ∧
    (mmap env pol store addr length prot flags (-1) offset).store = store ∧
    (mmap env pol store addr length prot flags (-1) offset).real_mmap_calls = 0 := by
  simp [mmap, hrwx, hw, hx, hpanic]

/-- Witness for C1: the spec's scenario, `policy = {disallow-RWX = on}`,
`Create(length = 4096, perms = write|execute)` on an empty store. -/
theorem c1_rwx_create_denied_witness :
    (⟨true, false, false, false, false, false, false, false⟩ : Policy).disallow_rwx = true ∧
    (PROT_WRITE ||| PROT_EXEC) &&& PROT_WRITE ≠ 0 ∧
    (PROT_WRITE ||| PROT_EXEC) &&& PROT_EXEC ≠ 0 ∧
    ((mmap envOk ⟨true, false, false, false, false, false, false, false⟩ []
        0 4096 (PROT_WRITE ||| PROT_EXEC) (MAP_ANONYMOUS ||| MAP_PRIVATE) (-1) 0).result
      = MAP_FAILED ∧
     (mmap envOk ⟨true, false, false, false, false, false, false, false⟩ []
        0 4096 (PROT_WRITE ||| PROT_EXEC) (MAP_ANONYMOUS ||| MAP_PRIVATE) (-1) 0).store
      = [] ∧
     (mmap envOk ⟨true, false, false, false, false, false, false, false⟩ []
        0 4096 (PROT_WRITE ||| PROT_EXEC) (MAP_ANONYMOUS ||| MAP_PRIVATE) (-1) 0).real_mmap_calls
      = 0) :=
  ⟨rfl, by decide, by decide,
    c1_rwx_create_denied envOk _ [] 0 4096 (PROT_WRITE ||| PROT_EXEC)
      (MAP_ANONYMOUS ||| MAP_PRIVATE) 0 rfl (by decide) (by decide) rfl⟩

/-! ### C2 -/

/-- C2: with disallow-transition-to-execute and the mapping cache enabled
(and panic-on-violation off), an `mprotect` request that includes execute
permission, on an address whose covering cached record is not execute-only
and has ever been granted write permission (`immutable_prot` contains
write), returns the failure sentinel -1 — with no hypothesis on the
record's `current_prot`, i.e. regardless of the permissions current at
request time. -/
theorem c2_transition_to_x_denied (env : Env) (pol : Policy) (store : List MCE)
    (addr len prot : Nat) (mce : MCE)
    (hcache : pol.use_mapping_cache = true)
    (htox : pol.disallow_transition_to_x = true)
    (hpanic : pol.panic_on_violation = false)
    (hfind : find_cached store addr = some mce)
    (hxom : mce.xom_enabled = 0)
    (hW : mce.immutable_prot &&& PROT_WRITE ≠ 0)
    (hX : prot &&& PROT_EXEC ≠ 0) :
    (mprotect env pol store addr len prot).result = ERROR := by
  by_cases hrwx : pol.disallow_rwx = true ∧ prot &&& PROT_WRITE ≠ 0 ∧ prot &&& PROT_EXEC ≠ 0
  · simp [mprotect, hrwx, hpanic]
  · simp [mprotect, hrwx, hcache, hfind, hxom, htox, hW, hX, hpanic]
    split <;> rfl

/-- Policy of the spec's C2/C10 scenario:
`{use-mapping-cache = on, disallow-transition-to-execute = on}`. -/
def polToX : Policy := ⟨false, true, false, false, false, false, false, true⟩

/-- A record created writable whose current permissions were later dropped
to read-only: `immutable_prot` keeps the write bit, `current_prot` is read. -/
def mceWasWritable : MCE := ⟨4096, 8192, PROT_WRITE, PROT_READ, 0, 0, 0, 0⟩

/-- Witness for C2: the record that was ever writable, now read-only,
still denies an execute reprotect at an interior address of its range. -/
theorem c2_transition_to_x_denied_witness :
    polToX.use_mapping_cache = true ∧
    find_cached [mceWasWritable] 8192 = some mceWasWritable ∧
    mceWasWritable.immutable_prot &&& PROT_WRITE ≠ 0 ∧
    (mprotect envOk polToX [mceWasWritable] 8192 4096 PROT_EXEC).result = ERROR :=
  ⟨rfl, by decide, by decide,
    c2_transition_to_x_denied envOk polToX [mceWasWritable] 8192 4096 PROT_EXEC
      mceWasWritable rfl rfl rfl (by decide) rfl (by decide) (by decide)⟩

/-! ### C3: permission-history invariants -/

/-- `a` is a sub-mask of `b`: every permission bit of `a` is also in `b`. -/
def subMask (a b : Nat) : Prop := a ||| b = b

instance (a b : Nat) : Decidable (subMask a b) := by unfold subMask; infer_instance

theorem subMask_refl (a : Nat) : subMask a a := Nat.or_self a

theorem subMask_trans {a b c : Nat} (h1 : subMask a b) (h2 : subMask b c) : subMask a c := by
  unfold subMask at *
  calc a ||| c = a ||| (b ||| c) := by rw [h2]
    _ = (a ||| b) ||| c := (Nat.or_assoc _ _ _).symm
    _ = b ||| c := by rw [h1]
    _ = c := h2

theorem subMask_or_right (a b : Nat) : subMask a (b ||| a) := by
  unfold subMask
  calc a ||| (b ||| a) = (a ||| b) ||| a := (Nat.or_assoc _ _ _).symm
    _ = (b ||| a) ||| a := by rw [Nat.or_comm a b]
    _ = b ||| (a ||| a) := Nat.or_assoc _ _ _
    _ = b ||| a := by rw [Nat.or_self]

theorem subMask_or_left (a b : Nat) : subMask b (b ||| a) := by
  unfold subMask
  calc b ||| (b ||| a) = (b ||| b) ||| a := (Nat.or_assoc _ _ _).symm
    _ = b ||| a := by rw [Nat.or_self]

/-- The record invariant of spec §3: `grantedPermissionsEver` is a
superset of `currentPermissions`. -/
def protInv (m : MCE) : Prop := subMask m.current_prot m.immutable_prot

instance (m : MCE) : Decidable (protInv m) := by unfold protInv; infer_instance

theorem protInv_map_bottom_guard_page (env : Env) (mce : MCE) (h : protInv mce) :
    protInv (map_bottom_guard_page env mce) := h

theorem protInv_map_top_guard_page (env : Env) (mce : MCE) (h : protInv mce) :
    protInv (map_top_guard_page env mce) := h

theorem protInv_map_guard_pages (env : Env) (mce : MCE) (h : protInv mce) :
    protInv (map_guard_pages env mce).1 := by
  unfold map_guard_pages
  split
  · exact h
  · exact protInv_map_top_guard_page _ _ (protInv_map_bottom_guard_page _ _ h)

theorem update_cached_length (v : List MCE) (a : Nat) (f : MCE → MCE) :
    (update_cached v a f).length = v.length := by
  induction v with
  | nil => rfl
  | cons m rest ih =>
    unfold update_cached
    split
    · rfl
    · simpa using ih

theorem update_cached_get? (v : List MCE) (a : Nat) (f : MCE → MCE) (i : Nat) :
    (update_cached v a f).get? i = v.get? i ∨
    (update_cached v a f).get? i = (v.get? i).map f := by
  induction v generalizing i with
  | nil => left; rfl
  | cons m rest ih =>
    unfold update_cached
    split
    · cases i with
      | zero => right; rfl
      | succ n => left; rfl
    · cases i with
      | zero => left; rfl
      | succ n => simpa using ih n

theorem mem_update_cached {m' : MCE} {v : List MCE} {a : Nat} {f : MCE → MCE}
    (h : m' ∈ update_cached v a f) : m' ∈ v ∨ ∃ m ∈ v, m' = f m := by
  induction v with
  | nil => exact absurd h (by simp [update_cached])
  | cons m rest ih =>
    unfold update_cached at h
    split at h
    · rcases List.mem_cons.mp h with h0 | h0
      · exact Or.inr ⟨m, List.mem_cons_self _ _, h0⟩
      · exact Or.inl (List.mem_cons_of_mem _ h0)
    · rcases List.mem_cons.mp h with h0 | h0
      · exact Or.inl (h0 ▸ List.mem_cons_self _ _)
      · rcases ih h0 with h1 | ⟨m0, hm0, he⟩
        · exact Or.inl (List.mem_cons_of_mem _ h1)
        · exact Or.inr ⟨m0, List.mem_cons_of_mem _ hm0, he⟩

/-- The effect of a successful `mprotect` on the found record. -/
def reprotect_update (prot : Nat) (m : MCE) : MCE :=
  { m with immutable_prot := m.immutable_prot ||| prot, current_prot := prot }

/-- Shape of the store after the `mmap` hook: unchanged, or one record
appended whose permissions satisfy the §3 invariant. -/
theorem mmap_store_shape (env : Env) (pol : Policy) (store : List MCE)
    (addr length prot flags : Nat) (fd : Int) (offset : Nat) :
    (mmap env pol store addr length prot flags fd offset).store = store ∨
    ∃ m, (mmap env pol store addr length prot flags fd offset).store = store ++ [m] ∧
      protInv m := by
  unfold mmap
  dsimp only
  split
  · exact Or.inl rfl
  split
  · split <;> exact Or.inl rfl
  split
  · split <;> exact Or.inl rfl
  split
  · exact Or.inl rfl
  split
  · split
    · refine Or.inr ⟨_, rfl, protInv_map_guard_pages _ _ ?_⟩
      show subMask prot (new_mapguard_cache_entry.immutable_prot ||| prot)
      exact subMask_or_right _ _
    · refine Or.inr ⟨_, rfl, ?_⟩
      show subMask prot (new_mapguard_cache_entry.immutable_prot ||| prot)
      exact subMask_or_right _ _
  · exact Or.inl rfl

/-- Shape of the store after the `mprotect` hook: unchanged, or the first
record covering `addr` updated by `immutable_prot |= prot; current_prot = prot`. -/
theorem mprotect_store_shape (env : Env) (pol : Policy) (store : List MCE)
    (addr len prot : Nat) :
    (mprotect env pol store addr len prot).store = store ∨
    (mprotect env pol store addr len prot).store =
      update_cached store addr (reprotect_update prot) := by
  unfold mprotect reprotect_update
  dsimp only
  split
  · split <;> exact Or.inl rfl
  split
  · split
    · split <;> exact Or.inl rfl
    split
    · split <;> exact Or.inl rfl
    split
    · exact Or.inr rfl
    · exact Or.inl rfl
  · exact Or.inl rfl

/-- A Create or Reprotect request, the two operations of the C3 claim.
Create requests here are anonymous (`fd` is a parameter, so file-backed
pass-throughs are covered as well). -/
inductive Op where
  | create (addr length prot flags : Nat) (fd : Int) (offset : Nat)
  | reprotect (addr len prot : Nat)

/-- Applying one operation to the mapping store. -/
def applyOp (env : Env) (pol : Policy) (store : List MCE) : Op → List MCE
  | .create addr length prot flags fd offset =>
    (mmap env pol store addr length prot flags fd offset).store
  | .reprotect addr len prot =>
    (mprotect env pol store addr len prot).store

/-- Applying a sequence of operations, oldest first. -/
def applyOps (env : Env) (pol : Policy) : List Op → List MCE → List MCE
  | [], s => s
  | op :: ops, s => applyOps env pol ops (applyOp env pol s op)

theorem applyOp_inv (env : Env) (pol : Policy) (store : List MCE) (op : Op)
    (h : ∀ m ∈ store, protInv m) :
    ∀ m ∈ applyOp env pol store op, protInv m := by
  cases op with
  | create addr length prot flags fd offset =>
    intro m hm
    simp only [applyOp] at hm
    rcases mmap_store_shape env pol store addr length prot flags fd offset with hs | ⟨m0, hs, hinv0⟩
    · exact h m (hs ▸ hm)
    · rw [hs] at hm
      rcases List.mem_append.mp hm with h0 | h0
      · exact h m h0
      · rwa [List.mem_singleton.mp h0]
  | reprotect addr len prot =>
    intro m hm
    simp only [applyOp] at hm
    rcases mprotect_store_shape env pol store addr len prot with hs | hs
    · exact h m (hs ▸ hm)
    · rw [hs] at hm
      rcases mem_update_cached hm with h0 | ⟨m0, _, he⟩
      · exact h m h0
      · rw [he]
        exact subMask_or_right _ _

theorem applyOp_mono (env : Env) (pol : Policy) (store : List MCE) (op : Op)
    (i : Nat) (m : MCE) (hg : store.get? i = some m) :
    ∃ m', (applyOp env pol store op).get? i = some m' ∧
      subMask m.immutable_prot m'.immutable_prot := by
  have hi : i < store.length := by
    by_contra hlt
    rw [List.get?_eq_none.mpr (Nat.le_of_not_lt hlt)] at hg
    exact Option.noConfusion hg
  cases op with
  | create addr length prot flags fd offset =>
    rcases mmap_store_shape env pol store addr length prot flags fd offset with hs | ⟨m0, hs, _⟩
    · exact ⟨m, by simp only [applyOp]; rw [hs, hg], subMask_refl _⟩
    · exact ⟨m, by simp only [applyOp]; rw [hs, List.get?_append hi, hg], subMask_refl _⟩
  | reprotect addr len prot =>
    rcases mprotect_store_shape env pol store addr len prot with hs | hs
    · exact ⟨m, by simp only [applyOp]; rw [hs, hg], subMask_refl _⟩
    · rcases update_cached_get? store addr (reprotect_update prot) i with hu | hu
      · exact ⟨m, by simp only [applyOp]; rw [hs, hu, hg], subMask_refl _⟩
      · refine ⟨reprotect_update prot m, by simp only [applyOp]; rw [hs, hu, hg]; rfl, ?_⟩
        exact subMask_or_left _ _

/-- C3: over any sequence of Create/Reprotect operations, (a) every record
in the store keeps `grantedPermissionsEver ⊇ currentPermissions`
(`protInv`), and (b) the record at any store position only ever gains
`immutable_prot` bits — `grantedPermissionsEver` is monotonically
non-decreasing over the record's lifetime (Create appends records and
Reprotect updates them in place, so a live record's position is stable
across these operations). -/
theorem c3_granted_monotone (env : Env) (pol : Policy) (ops : List Op) (store : List MCE)
    (hinv : ∀ m ∈ store, protInv m) :
    (∀ m ∈ applyOps env pol ops store, protInv m) ∧
    (∀ i m m', store.get? i = some m → (applyOps env pol ops store).get? i = some m' →
      subMask m.immutable_prot m'.immutable_prot) := by
  induction ops generalizing store with
  | nil =>
    refine ⟨hinv, fun i m m' h1 h2 => ?_⟩
    rw [show applyOps env pol [] store = store from rfl] at h2
    rw [h1] at h2
    rw [Option.some.injEq] at h2
    rw [← h2]
    exact subMask_refl _
  | cons op ops ih =>
    have hinv1 := applyOp_inv env pol store op hinv
    have hmain := ih (applyOp env pol store op) hinv1
    refine ⟨hmain.1, fun i m m' h1 h2 => ?_⟩
    rcases applyOp_mono env pol store op i m h1 with ⟨m1, hg1, hsub1⟩
    exact subMask_trans hsub1 (hmain.2 i m1 m' hg1 h2)

/-- Policy with only the mapping cache enabled. -/
def polCache : Policy := ⟨false, false, false, false, false, false, false, true⟩

/-- Witness for C3: starting from the empty store, an anonymous writable
Create followed by a read-only Reprotect of the new mapping; the invariant
and the monotonicity statement hold for the resulting two-operation run. -/
theorem c3_granted_monotone_witness :
    (∀ m ∈ ([] : List MCE), protInv m) ∧
    ((∀ m ∈ applyOps envOk polCache
        [Op.create 0 4096 PROT_WRITE (MAP_ANONYMOUS ||| MAP_PRIVATE) (-1) 0,
         Op.reprotect 1048576 4096 PROT_READ] [], protInv m) ∧
     (∀ i m m', ([] : List MCE).get? i = some m →
        (applyOps envOk polCache
          [Op.create 0 4096 PROT_WRITE (MAP_ANONYMOUS ||| MAP_PRIVATE) (-1) 0,
           Op.reprotect 1048576 4096 PROT_READ] []).get? i = some m' →
        subMask m.immutable_prot m'.immutable_prot)) :=
  ⟨by decide,
    c3_granted_monotone envOk polCache
      [Op.create 0 4096 PROT_WRITE (MAP_ANONYMOUS ||| MAP_PRIVATE) (-1) 0,
       Op.reprotect 1048576 4096 PROT_READ] [] (by decide)⟩

/-! ### C4: exact-match Remove -/

theorem find_cached_eq_none (v : List MCE) (a : Nat) :
    find_cached v a = none ↔ ∀ m ∈ v, is_mapguard_entry_cached m a = false := by
  induction v with
  | nil => simp [find_cached]
  | cons m rest ih =>
    unfold find_cached
    by_cases h : is_mapguard_entry_cached m a = true
    · simp [h]
    · simp only [Bool.not_eq_true] at h
      simp [h, ih]

theorem vector_delete_at_length (v : List MCE) (i : Nat) (h : i < v.length) :
    (vector_delete_at v i).length = v.length - 1 := by
  unfold vector_delete_at
  rw [if_pos h]
  split
  · exact List.length_dropLast v
  · rw [List.length_dropLast, List.length_set]

/-- Every survivor of `vector_delete_at v i` came from a position of `v`
other than `i`. -/
theorem vector_delete_at_get (v : List MCE) (i : Nat) (h : i < v.length)
    (m : MCE) (hm : m ∈ vector_delete_at v i) :
    ∃ j, j ≠ i ∧ v.get? j = some m := by
  unfold vector_delete_at at hm
  rw [if_pos h] at hm
  have hlen1 : 1 ≤ v.length := by omega
  split at hm
  case isTrue heq =>
    obtain ⟨j, hj⟩ := List.get?_of_mem hm
    have hjlt : j < v.dropLast.length := by
      by_contra hlt
      rw [List.get?_eq_none.mpr (Nat.le_of_not_lt hlt)] at hj
      exact Option.noConfusion hj
    rw [List.length_dropLast] at hjlt
    refine ⟨j, ?_, ?_⟩
    · omega
    · rw [List.dropLast_eq_take] at hj
      rwa [List.get?_take hjlt] at hj
  case isFalse hne =>
    obtain ⟨j, hj⟩ := List.get?_of_mem hm
    have hjlt : j < (v.set i (v.getLast?.getD default)).dropLast.length := by
      by_contra hlt
      rw [List.get?_eq_none.mpr (Nat.le_of_not_lt hlt)] at hj
      exact Option.noConfusion hj
    rw [List.length_dropLast, List.length_set] at hjlt
    rw [List.dropLast_eq_take] at hj
    rw [List.get?_take (by rwa [List.length_set])] at hj
    by_cases hji : j = i
    · subst hji
      have hlast : v.get? (v.length - 1) = some (v.get ⟨v.length - 1, by omega⟩) :=
        List.get?_eq_get (by omega)
      have hgd : v.getLast?.getD default = v.get ⟨v.length - 1, by omega⟩ := by
        rw [List.getLast?_eq_get?, hlast]
        rfl
      rw [List.get?_set_eq_of_lt _ h] at hj
      refine ⟨v.length - 1, by omega, ?_⟩
      rw [hlast, ← hgd]
      exact hj
    · refine ⟨j, hji, ?_⟩
      rwa [List.get?_set_ne _ _ fun he => hji he.symm] at hj

/-- The real `munmap` calls issued by `unmap_guard_pages`: the bottom
guard (if non-NULL), then the top guard (if non-NULL). -/
theorem unmap_guard_pages_calls (env : Env) (mce : MCE) :
    (unmap_guard_pages env mce).2 =
      (if mce.guard_bottom ≠ 0 then [(mce.guard_bottom, env.page_size)] else []) ++
      (if mce.guard_top ≠ 0 then [(mce.guard_top, env.page_size)] else []) := by
  unfold unmap_guard_pages unmap_bottom_guard_page unmap_top_guard_page
  dsimp only
  split <;> split <;> rfl

/-- C4: a Remove whose `(addr, length)` exactly matches a tracked record,
with the cache enabled, the record's `cache_index` pointing at its actual
store position (the §3 invariant), the record stored at only that
position, and no other record's range covering any address of
`[addr, addr+length)`: the call real-unmaps both guard pages (when
present), removes the record from the store (one fewer entry, the record
gone), performs the real unmap (its result is returned), and a subsequent
lookup by any address of the former range finds no record. -/
theorem c4_exact_remove (env : Env) (pol : Policy) (store : List MCE)
    (addr length : Nat) (mce : MCE)
    (hcache : pol.use_mapping_cache = true)
    (hfind : find_cached store addr = some mce)
    (hstart : mce.start = addr)
    (hsize : mce.size = length)
    (hidx : store.get? mce.cache_index = some mce)
    (huniq : ∀ j, j < store.length → store.get? j = some mce → j = mce.cache_index)
    (hcover : ∀ off, off < length → ∀ m ∈ store,
      is_mapguard_entry_cached m (addr + off) = true → m = mce) :
    (munmap env pol store addr length).result = env.real_munmap addr length ∧
    (addr, length) ∈ (munmap env pol store addr length).munmap_calls ∧
    (mce.guard_bottom ≠ 0 →
      (mce.guard_bottom, env.page_size) ∈ (munmap env pol store addr length).munmap_calls) ∧
    (mce.guard_top ≠ 0 →
      (mce.guard_top, env.page_size) ∈ (munmap env pol store addr length).munmap_calls) ∧
    (munmap env pol store addr length).store.length + 1 = store.length ∧
    mce ∉ (munmap env pol store addr length).store ∧
    ∀ off, off < length →
      find_cached (munmap env pol store addr length).store (addr + off) = none := by
  have hci : mce.cache_index < store.length := by
    by_contra hlt
    rw [List.get?_eq_none.mpr (Nat.le_of_not_lt hlt)] at hidx
    exact Option.noConfusion hidx
  have hout : munmap env pol store addr length =
      ⟨env.real_munmap addr length, vector_delete_at store mce.cache_index,
        (unmap_guard_pages env mce).2 ++ [(addr, length)], 0⟩ := by
    unfold munmap
    rw [if_pos hcache, hfind]
    dsimp only
    rw [if_neg (by simp [hstart, hsize])]
  have hrem : ∀ m ∈ vector_delete_at store mce.cache_index, m ≠ mce ∧ m ∈ store := by
    intro m hm
    obtain ⟨j, hji, hj⟩ := vector_delete_at_get store mce.cache_index hci m hm
    have hjlt : j < store.length := by
      by_contra hlt
      rw [List.get?_eq_none.mpr (Nat.le_of_not_lt hlt)] at hj
      exact Option.noConfusion hj
    exact ⟨fun he => hji (huniq j hjlt (he ▸ hj)), List.get?_mem hj⟩
  rw [hout]
  refine ⟨rfl, ?_, ?_, ?_, ?_, ?_, ?_⟩
  · exact List.mem_append_right _ (List.mem_singleton.mpr rfl)
  · intro hb
    apply List.mem_append_left
    rw [unmap_guard_pages_calls, if_pos hb]
    exact List.mem_append_left _ (List.mem_singleton.mpr rfl)
  · intro ht
    apply List.mem_append_left
    rw [unmap_guard_pages_calls, if_pos ht]
    exact List.mem_append_right _ (List.mem_singleton.mpr rfl)
  · rw [show (MunmapOut.mk (env.real_munmap addr length)
        (vector_delete_at store mce.cache_index)
        ((unmap_guard_pages env mce).2 ++ [(addr, length)]) 0).store =
        vector_delete_at store mce.cache_index from rfl]
    rw [vector_delete_at_length store mce.cache_index hci]
    omega
  · intro hmem
    exact (hrem mce hmem).1 rfl
  · intro off hoff
    rw [find_cached_eq_none]
    intro m hm
    obtain ⟨hne, hmem⟩ := hrem m hm
    cases hp : is_mapguard_entry_cached m (addr + off) with
    | false => rfl
    | true => exact absurd (hcover off hoff m hmem hp) hne

/-- A tracked record with both guard pages present, at store position 0
matching its `cache_index`. -/
def mceGuarded : MCE := ⟨4096, 4, 3, 3, 0, 2048, 8192, 0⟩

/-- Witness for C4: exact-match Remove of the only tracked record. -/
theorem c4_exact_remove_witness :
    find_cached [mceGuarded] 4096 = some mceGuarded ∧
    ((munmap envOk polCache [mceGuarded] 4096 4).result = envOk.real_munmap 4096 4 ∧
     (4096, 4) ∈ (munmap envOk polCache [mceGuarded] 4096 4).munmap_calls ∧
     (mceGuarded.guard_bottom ≠ 0 →
       (mceGuarded.guard_bottom, envOk.page_size) ∈
         (munmap envOk polCache [mceGuarded] 4096 4).munmap_calls) ∧
     (mceGuarded.guard_top ≠ 0 →
       (mceGuarded.guard_top, envOk.page_size) ∈
         (munmap envOk polCache [mceGuarded] 4096 4).munmap_calls) ∧
     (munmap envOk polCache [mceGuarded] 4096 4).store.length + 1 = 1 ∧
     mceGuarded ∉ (munmap envOk polCache [mceGuarded] 4096 4).store ∧
     ∀ off, off < 4 →
       find_cached (munmap envOk polCache [mceGuarded] 4096 4).store (4096 + off) = none) :=
  ⟨by decide,
    c4_exact_remove envOk polCache [mceGuarded] 4096 4 mceGuarded rfl (by decide)
      rfl rfl (by decide) (by decide) (by decide)⟩

/-! ### C5: Relocate -/

/-- When the lookup finds `mce`, the store after `update_cached` contains
the updated record `f mce`. -/
theorem update_cached_mem_of_found {v : List MCE} {a : Nat} {mce : MCE}
    (h : find_cached v a = some mce) (f : MCE → MCE) :
    f mce ∈ update_cached v a f := by
  induction v with
  | nil => exact absurd h (by simp [find_cached])
  | cons m rest ih =>
    unfold find_cached at h
    unfold update_cached
    split at h
    case isTrue hp =>
      rw [if_pos hp, Option.some.injEq] at *
      rw [h]
      exact List.mem_cons_self _ _
    case isFalse hp =>
      rw [if_neg hp]
      exact List.mem_cons_of_mem _ (ih h)

/-- A tracked record with no guard pages (guard fields NULL). -/
def mceUnguarded : MCE := ⟨4096, 4096, 3, 3, 0, 0, 0, 0⟩

/-- Counterexample to C5 as stated: cache enabled, tracked record found
for `oldAddr`, real `mremap` succeeds (returns `0x200000`, not
`MAP_FAILED`) — yet because the record has no guard page set, the hook
leaves the store completely unchanged: `base` stays `4096` and `length`
stays `4096` instead of being updated to the new address and `8192`. -/
theorem c5_counterexample :
    (mremap envOk polCache [mceUnguarded] 4096 4096 8192 1).result = 2097152 ∧
    (mremap envOk polCache [mceUnguarded] 4096 4096 8192 1).result ≠ MAP_FAILED ∧
    find_cached [mceUnguarded] 4096 = some mceUnguarded ∧
    (mremap envOk polCache [mceUnguarded] 4096 4096 8192 1).store = [mceUnguarded] ∧
    mceUnguarded.start = 4096 ∧ mceUnguarded.size = 4096 := by decide

/-- C5 as amended: a successful Relocate with the cache enabled updates
the covering record's `base` to the address the real primitive returned
and its `length` to the new length, and re-places two guard pages at the
new boundaries (with the old guard addresses passed to the real unmap),
only when the record entered the call with at least one non-NULL
guard-page field (and the new address is non-null); records with neither
guard field set are left entirely unchanged (see the counterexample). -/
theorem c5_relocate_updates (env : Env) (pol : Policy) (store : List MCE)
    (addr old_len new_len flags : Nat) (mce : MCE)
    (hcache : pol.use_mapping_cache = true)
    (hfind : find_cached store addr = some mce)
    (hguard : mce.guard_bottom ≠ 0 ∨ mce.guard_top ≠ 0)
    (hres : env.real_mremap addr old_len new_len flags ≠ MAP_FAILED)
    (hnz : env.real_mremap addr old_len new_len flags ≠ 0) :
    (mremap env pol store addr old_len new_len flags).result =
      env.real_mremap addr old_len new_len flags ∧
    (∃ m ∈ (mremap env pol store addr old_len new_len flags).store,
      m.start = env.real_mremap addr old_len new_len flags ∧
      m.size = new_len ∧
      m.guard_bottom = map_guard_page env
        (get_base_page env (sub64 (env.real_mremap addr old_len new_len flags) 1)) ∧
      m.guard_top = map_guard_page env
        (round_up_page env (add64 (env.real_mremap addr old_len new_len flags) new_len))) ∧
    (mremap env pol store addr old_len new_len flags).real_mmap_calls = 2 ∧
    (mce.guard_bottom, env.page_size) ∈
      (mremap env pol store addr old_len new_len flags).munmap_calls ∧
    (mce.guard_top, env.page_size) ∈
      (mremap env pol store addr old_len new_len flags).munmap_calls := by
  have hout : mremap env pol store addr old_len new_len flags =
      ⟨env.real_mremap addr old_len new_len flags,
       update_cached store addr fun _ =>
         map_top_guard_page env (map_bottom_guard_page env
           { mce with start := env.real_mremap addr old_len new_len flags, size := new_len }),
       [(mce.guard_bottom, env.page_size), (mce.guard_top, env.page_size)], 2⟩ := by
    unfold mremap
    dsimp only
    rw [if_pos hcache, hfind]
    dsimp only
    rw [if_pos ⟨hguard, hres⟩]
    unfold map_guard_pages
    rw [if_neg (by simp [hnz])]
  rw [hout]
  refine ⟨rfl, ⟨_, update_cached_mem_of_found hfind _, rfl, rfl, rfl, rfl⟩, rfl, ?_, ?_⟩
  · exact List.mem_cons_self _ _
  · exact List.mem_cons_of_mem _ (List.mem_cons_self _ _)

/-- Witness for C5 (amended): relocating the guarded record updates it
and re-places both guards. -/
theorem c5_relocate_updates_witness :
    find_cached [mceGuarded] 4096 = some mceGuarded ∧
    (mceGuarded.guard_bottom ≠ 0 ∨ mceGuarded.guard_top ≠ 0) ∧
    ((mremap envOk polCache [mceGuarded] 4096 4 8192 1).result =
       envOk.real_mremap 4096 4 8192 1 ∧
     (∃ m ∈ (mremap envOk polCache [mceGuarded] 4096 4 8192 1).store,
       m.start = envOk.real_mremap 4096 4 8192 1 ∧
       m.size = 8192 ∧
       m.guard_bottom = map_guard_page envOk
         (get_base_page envOk (sub64 (envOk.real_mremap 4096 4 8192 1) 1)) ∧
       m.guard_top = map_guard_page envOk
         (round_up_page envOk (add64 (envOk.real_mremap 4096 4 8192 1) 8192))) ∧
     (mremap envOk polCache [mceGuarded] 4096 4 8192 1).real_mmap_calls = 2 ∧
     (mceGuarded.guard_bottom, envOk.page_size) ∈
       (mremap envOk polCache [mceGuarded] 4096 4 8192 1).munmap_calls ∧
     (mceGuarded.guard_top, envOk.page_size) ∈
       (mremap envOk polCache [mceGuarded] 4096 4 8192 1).munmap_calls) :=
  ⟨by decide, by decide,
    c5_relocate_updates envOk polCache [mceGuarded] 4096 4 8192 1 mceGuarded
      rfl (by decide) (by decide) (by decide) (by decide)⟩

/-! ### C6: storeIndex invariant -/

/-- The store-index invariant of spec §3: every record's `cache_index`
equals its actual position in the Mapping Store. -/
def storeIndexInv (v : List MCE) : Prop :=
  ∀ i m, v.get? i = some m → m.cache_index = i

/-- Record at store position 0, `cache_index = 0`. -/
def mceA : MCE := ⟨4096, 4096, 3, 3, 0, 0, 0, 0⟩

/-- Record at store position 1, `cache_index = 1`. -/
def mceB : MCE := ⟨16384, 4096, 3, 3, 1, 0, 0, 0⟩

/-- C6 failing input, evaluated: store `[mceA, mceB]` satisfies the
store-index invariant; an exact-match Remove of `mceA` (position 0)
swap-deletes it, moving `mceB` to position 0 — but nothing in mapguard.c
(nor in the generic container, which only holds opaque pointers) updates
the moved record's `cache_index`, which remains 1. The invariant is
violated after the removal; a later exact-match Remove of `mceB` would
delete whatever sits at index 1. -/
theorem c6_stale_cache_index :
    storeIndexInv [mceA, mceB] ∧
    (munmap envOk polCache [mceA, mceB] 4096 4096).store = [mceB] ∧
    mceB.cache_index = 1 ∧
    ¬ storeIndexInv (munmap envOk polCache [mceA, mceB] 4096 4096).store := by
  refine ⟨?_, by decide, rfl, fun h => ?_⟩
  · intro i m hm
    match i, hm with
    | 0, hm => rw [← Option.some.inj hm]; rfl
    | 1, hm => rw [← Option.some.inj hm]; rfl
  · have h0 := h 0 mceB (by decide)
    exact absurd h0 (by decide)

/-! ### C7: failure of the real primitive -/

/-- A tracked record spanning three pages worth of bytes. -/
def mceWide : MCE := ⟨4096, 12288, 3, 3, 0, 0, 0, 0⟩

/-- Counterexample to C7 as stated: a tail-partial Remove whose real
`munmap` fails (returns -1) nonetheless leaves the tracked record's
`size` shrunk from 12288 to 8192 — the hook mutates the record before
invoking the real primitive, so the failure does not leave the record
"as it was before the call". -/
theorem c7_counterexample :
    mceWide.size = 12288 ∧
    (munmap envMunmapFail polCache [mceWide] 12288 4096).result = -1 ∧
    (munmap envMunmapFail polCache [mceWide] 12288 4096).store =
      [⟨4096, 8192, 3, 3, 0, 0, 0, 0⟩] := by decide

/-- C7 as amended: (1) a failed real `mmap` (no policy denial, anonymous)
returns `MAP_FAILED` and inserts no record — the store is unchanged;
(2) a failed real `munmap` on a tracked range (tail-partial case) still
returns the failure, but the record has already been mutated: its `size`
has been shrunk by `length` before the real call was made (the exact-match
case likewise deletes the record before the real call). -/
theorem c7_real_failure (env : Env) :
    (∀ (pol : Policy) (store : List MCE) (addr length prot flags offset : Nat),
      ¬(pol.disallow_rwx = true ∧ prot &&& PROT_WRITE ≠ 0 ∧ prot &&& PROT_EXEC ≠ 0) →
      ¬(addr ≠ 0 ∧ pol.disallow_static_address = true) →
      env.real_mmap addr length prot flags (-1) offset = MAP_FAILED →
      (mmap env pol store addr length prot flags (-1) offset).result = MAP_FAILED ∧
      (mmap env pol store addr length prot flags (-1) offset).store = store) ∧
    (∀ (pol : Policy) (store : List MCE) (addr length : Nat) (mce : MCE),
      pol.use_mapping_cache = true →
      find_cached store addr = some mce →
      addr > mce.start →
      length < sub64 mce.size length →
      env.real_munmap addr length ≠ 0 →
      (munmap env pol store addr length).result = env.real_munmap addr length ∧
      (munmap env pol store addr length).store =
        update_cached store addr fun _ => { mce with size := sub64 mce.size length }) := by
  constructor
  · intro pol store addr length prot flags offset hrwx hstatic hfail
    constructor <;> simp [mmap, hrwx, hstatic, hfail]
  · intro pol store addr length mce hcache hfind haddr hlen hfail
    unfold munmap
    rw [if_pos hcache, hfind]
    dsimp only
    rw [if_pos (Or.inl (Nat.ne_of_lt haddr))]
    rw [if_pos ⟨haddr, hlen⟩]
    refine ⟨rfl, ?_⟩
    dsimp only
    congr 1
    funext x
    rw [if_neg hfail]
    unfold unmap_top_guard_page
    dsimp only
    split <;> rfl

/-- Witness for C7 (amended): part (1) at an environment whose real
`mmap` always fails; part (2) at the counterexample's input. -/
theorem c7_real_failure_witness :
    ((mmap envMmapFail polCache [] 0 4096 3 34 (-1) 0).result = MAP_FAILED ∧
     (mmap envMmapFail polCache [] 0 4096 3 34 (-1) 0).store = []) ∧
    ((munmap envMunmapFail polCache [mceWide] 12288 4096).result =
       envMunmapFail.real_munmap 12288 4096 ∧
     (munmap envMunmapFail polCache [mceWide] 12288 4096).store =
       update_cached [mceWide] 12288 fun _ => { mceWide with size := sub64 mceWide.size 4096 }) :=
  ⟨(c7_real_failure envMmapFail).1 polCache [] 0 4096 3 34 0
      (by decide) (by decide) (by decide),
   (c7_real_failure envMunmapFail).2 polCache [mceWide] 12288 4096 mceWide
      rfl (by decide) (by decide) (by decide) (by decide)⟩

/-! ### C8: guard placement failure -/

/-- Policy with the mapping cache and guard pages enabled. -/
def polCacheGuard : Policy := ⟨false, false, false, false, true, false, false, true⟩

/-- Counterexample to C8 as stated: with guard pages enabled and both
guard `mmap` calls failing, the new record's `guard_bottom`/`guard_top`
fields are not left absent (NULL): the code stores the raw `MAP_FAILED`
sentinel, which is non-null. (The primary mapping itself still succeeds.) -/
theorem c8_counterexample :
    (mmap envGuardFail polCacheGuard [] 0 4096 3 34 (-1) 0).result = 1048576 ∧
    (mmap envGuardFail polCacheGuard [] 0 4096 3 34 (-1) 0).store =
      [⟨1048576, 4096, 3, 3, 0, MAP_FAILED, MAP_FAILED, 0⟩] ∧
    MAP_FAILED ≠ 0 := by decide

/-- C8 as amended: when the primary anonymous `mmap` succeeds but both
guard-page `mmap` calls fail, the hook still returns the primary address
(guard failure is never propagated and the record is kept), but the
record's guard fields hold the raw `MAP_FAILED` value rather than NULL —
they are not "absent", and nothing resets them. -/
theorem c8_guard_failure_kept (env : Env) (pol : Policy) (store : List MCE)
    (addr length prot flags offset : Nat)
    (hrwx : pol.disallow_rwx = false)
    (hstatic : pol.disallow_static_address = false)
    (hcache : pol.use_mapping_cache = true)
    (hguards : pol.enable_guard_pages = true)
    (hres : env.real_mmap addr length prot flags (-1) offset ≠ MAP_FAILED)
    (hnz : env.real_mmap addr length prot flags (-1) offset ≠ 0)
    (hbot : map_guard_page env
      (get_base_page env (sub64 (env.real_mmap addr length prot flags (-1) offset) 1))
      = MAP_FAILED)
    (htop : map_guard_page env
      (round_up_page env (add64 (env.real_mmap addr length prot flags (-1) offset) length))
      = MAP_FAILED) :
    (mmap env pol store addr length prot flags (-1) offset).result =
      env.real_mmap addr length prot flags (-1) offset ∧
    ∃ m, (mmap env pol store addr length prot flags (-1) offset).store = store ++ [m] ∧
      m.start = env.real_mmap addr length prot flags (-1) offset ∧
      m.size = length ∧
      m.guard_bottom = MAP_FAILED ∧
      m.guard_top = MAP_FAILED := by
  unfold mmap
  dsimp only
  rw [if_neg (by simp), if_neg (by simp [hrwx]), if_neg (by simp [hstatic]),
    if_neg hres, if_pos hcache, if_pos hguards]
  unfold map_guard_pages
  rw [if_neg (by simp [hnz])]
  refine ⟨rfl, _, rfl, rfl, rfl, ?_, ?_⟩
  · exact hbot
  · exact htop

/-- Witness for C8 (amended): concrete environment where guard mappings
(`PROT_NONE`) fail and the primary mapping succeeds. -/
theorem c8_guard_failure_kept_witness :
    envGuardFail.real_mmap 0 4096 3 34 (-1) 0 ≠ MAP_FAILED ∧
    map_guard_page envGuardFail
      (get_base_page envGuardFail (sub64 (envGuardFail.real_mmap 0 4096 3 34 (-1) 0) 1))
      = MAP_FAILED ∧
    ((mmap envGuardFail polCacheGuard [] 0 4096 3 34 (-1) 0).result =
       envGuardFail.real_mmap 0 4096 3 34 (-1) 0 ∧
     ∃ m, (mmap envGuardFail polCacheGuard [] 0 4096 3 34 (-1) 0).store = [] ++ [m] ∧
       m.start = envGuardFail.real_mmap 0 4096 3 34 (-1) 0 ∧
       m.size = 4096 ∧
       m.guard_bottom = MAP_FAILED ∧
       m.guard_top = MAP_FAILED) :=
  ⟨by decide, by decide,
    c8_guard_failure_kept envGuardFail polCacheGuard [] 0 4096 3 34 0
      rfl rfl rfl rfl (by decide) (by decide) (by decide) (by decide)⟩

/-! ### C9: guard-page unmap helpers -/

/-- Counterexample to C9 as stated: unmapping the present top guard page
of a record issues the real `munmap` of that page but does **not** clear
the record's `guard_top` field — it still holds the old address 8192
afterwards (the claim requires it cleared). -/
theorem c9_counterexample :
    mceGuarded.guard_top = 8192 ∧ (8192 : Nat) ≠ 0 ∧
    (unmap_top_guard_page envOk mceGuarded).2 = [(8192, 4096)] ∧
    (unmap_top_guard_page envOk mceGuarded).1.guard_top = 8192 := by decide

/-- C9 as amended: `unmap_top_guard_page`/`unmap_bottom_guard_page` issue
exactly one real `munmap` of `(guard, page_size)` when the corresponding
guard field is non-NULL and none when it is NULL, and in **all** cases
return the record completely unchanged — the guard field is never
cleared. -/
theorem c9_guard_unmap_no_clear (env : Env) (mce : MCE) :
    (unmap_top_guard_page env mce).1 = mce ∧
    (unmap_bottom_guard_page env mce).1 = mce ∧
    (mce.guard_top ≠ 0 →
      (unmap_top_guard_page env mce).2 = [(mce.guard_top, env.page_size)]) ∧
    (mce.guard_top = 0 → (unmap_top_guard_page env mce).2 = []) ∧
    (mce.guard_bottom ≠ 0 →
      (unmap_bottom_guard_page env mce).2 = [(mce.guard_bottom, env.page_size)]) ∧
    (mce.guard_bottom = 0 → (unmap_bottom_guard_page env mce).2 = []) := by
  unfold unmap_top_guard_page unmap_bottom_guard_page
  refine ⟨?_, ?_, ?_, ?_, ?_, ?_⟩
  · split <;> rfl
  · split <;> rfl
  · intro h; rw [if_pos h]
  · intro h; rw [if_neg (by simp [h])]
  · intro h; rw [if_pos h]
  · intro h; rw [if_neg (by simp [h])]

/-- Witness for C9 (amended): a record with both guards present and a
record with neither. -/
theorem c9_guard_unmap_no_clear_witness :
    (unmap_top_guard_page envOk mceGuarded).1 = mceGuarded ∧
    (unmap_top_guard_page envOk mceGuarded).2 = [(mceGuarded.guard_top, envOk.page_size)] ∧
    (unmap_bottom_guard_page envOk mceGuarded).2 =
      [(mceGuarded.guard_bottom, envOk.page_size)] ∧
    (unmap_top_guard_page envOk mceUnguarded).2 = [] ∧
    (unmap_bottom_guard_page envOk mceUnguarded).2 = [] :=
  ⟨(c9_guard_unmap_no_clear envOk mceGuarded).1,
   (c9_guard_unmap_no_clear envOk mceGuarded).2.2.1 (by decide),
   (c9_guard_unmap_no_clear envOk mceGuarded).2.2.2.2.1 (by decide),
   (c9_guard_unmap_no_clear envOk mceUnguarded).2.2.2.1 rfl,
   (c9_guard_unmap_no_clear envOk mceUnguarded).2.2.2.2.2 rfl⟩

/-! ### C10: denial behaviour of Reprotect -/

/-- Policy with only disallow-RWX enabled. -/
def polRwx : Policy := ⟨true, false, false, false, false, false, false, false⟩

/-- Counterexample to C10 as stated: a Reprotect denied by the
disallow-RWX rule returns the failure sentinel without calling the real
primitive — but does **not** set `errno` (the claim requires `errno` set
to the invalid-argument condition for every policy denial). -/
theorem c10_counterexample :
    (mprotect envOk polRwx [] 4096 4096 6).result = ERROR ∧
    (mprotect envOk polRwx [] 4096 4096 6).real_mprotect_calls = 0 ∧
    (mprotect envOk polRwx [] 4096 4096 6).errno_set = none := by decide

/-- C10 as amended: every policy denial of Reprotect returns the failure
sentinel -1 without invoking the real primitive and with the store (hence
the record's `current_prot` and `immutable_prot`) unchanged; the two
transition-rule denials additionally set `errno = EINVAL`, but the
disallow-RWX denial does not touch `errno` at all. -/
theorem c10_denial_behaviour :
    (∀ (env : Env) (pol : Policy) (store : List MCE) (addr len prot : Nat),
      pol.disallow_rwx = true → pol.panic_on_violation = false →
      prot &&& PROT_WRITE ≠ 0 → prot &&& PROT_EXEC ≠ 0 →
      (mprotect env pol store addr len prot).result = ERROR ∧
      (mprotect env pol store addr len prot).real_mprotect_calls = 0 ∧
      (mprotect env pol store addr len prot).errno_set = none ∧
      (mprotect env pol store addr len prot).store = store) ∧
    (∀ (env : Env) (pol : Policy) (store : List MCE) (addr len prot : Nat) (mce : MCE),
      pol.disallow_rwx = false → pol.panic_on_violation = false →
      pol.use_mapping_cache = true →
      find_cached store addr = some mce → mce.xom_enabled = 0 →
      pol.disallow_transition_to_x = true →
      prot &&& PROT_EXEC ≠ 0 → mce.immutable_prot &&& PROT_WRITE ≠ 0 →
      (mprotect env pol store addr len prot).result = ERROR ∧
      (mprotect env pol store addr len prot).real_mprotect_calls = 0 ∧
      (mprotect env pol store addr len prot).errno_set = some EINVAL ∧
      (mprotect env pol store addr len prot).store = store) ∧
    (∀ (env : Env) (pol : Policy) (store : List MCE) (addr len prot : Nat) (mce : MCE),
      pol.disallow_rwx = false → pol.panic_on_violation = false →
      pol.use_mapping_cache = true →
      find_cached store addr = some mce → mce.xom_enabled = 0 →
      pol.disallow_transition_from_x = true →
      prot &&& PROT_WRITE ≠ 0 → mce.immutable_prot &&& PROT_EXEC ≠ 0 →
      (mprotect env pol store addr len prot).result = ERROR ∧
      (mprotect env pol store addr len prot).real_mprotect_calls = 0 ∧
      (mprotect env pol store addr len prot).errno_set = some EINVAL ∧
      (mprotect env pol store addr len prot).store = store) := by
  refine ⟨?_, ?_, ?_⟩
  · intro env pol store addr len prot hrwx hpanic hw hx
    simp [mprotect, hrwx, hpanic, hw, hx]
  · intro env pol store addr len prot mce hrwx hpanic hcache hfind hxom htox hx hiw
    simp [mprotect, hrwx, hpanic, hcache, hfind, hxom, htox, hx, hiw]
  · intro env pol store addr len prot mce hrwx hpanic hcache hfind hxom hfromx hw hix
    by_cases htox : pol.disallow_transition_to_x = true ∧ prot &&& PROT_EXEC ≠ 0 ∧
        mce.immutable_prot &&& PROT_WRITE ≠ 0
    · simp [mprotect, hrwx, hpanic, hcache, hfind, hxom, htox.1, htox.2.1, htox.2.2]
    · simp [mprotect, hrwx, hpanic, hcache, hfind, hxom, hfromx, hw, hix]

/-- Policy `{use-mapping-cache = on, disallow-transition-from-execute = on}`. -/
def polFromX : Policy := ⟨false, false, true, false, false, false, false, true⟩

/-- A record that has ever been executable (`immutable_prot` has execute). -/
def mceWasExec : MCE := ⟨4096, 8192, 5, 4, 0, 0, 0, 0⟩

/-- Witness for C10 (amended): the three denial paths at concrete inputs —
RWX denial with no `errno`, transition-to-execute and
transition-from-execute denials with `errno = EINVAL`. -/
theorem c10_denial_behaviour_witness :
    ((mprotect envOk polRwx [] 4096 4096 6).result = ERROR ∧
     (mprotect envOk polRwx [] 4096 4096 6).real_mprotect_calls = 0 ∧
     (mprotect envOk polRwx [] 4096 4096 6).errno_set = none ∧
     (mprotect envOk polRwx [] 4096 4096 6).store = []) ∧
    ((mprotect envOk polToX [mceWasWritable] 8192 4096 PROT_EXEC).result = ERROR ∧
     (mprotect envOk polToX [mceWasWritable] 8192 4096 PROT_EXEC).real_mprotect_calls = 0 ∧
     (mprotect envOk polToX [mceWasWritable] 8192 4096 PROT_EXEC).errno_set = some EINVAL ∧
     (mprotect envOk polToX [mceWasWritable] 8192 4096 PROT_EXEC).store = [mceWasWritable]) ∧
    ((mprotect envOk polFromX [mceWasExec] 4096 8192 PROT_WRITE).result = ERROR ∧
     (mprotect envOk polFromX [mceWasExec] 4096 8192 PROT_WRITE).real_mprotect_calls = 0 ∧
     (mprotect envOk polFromX [mceWasExec] 4096 8192 PROT_WRITE).errno_set = some EINVAL ∧
     (mprotect envOk polFromX [mceWasExec] 4096 8192 PROT_WRITE).store = [mceWasExec]) :=
  ⟨c10_denial_behaviour.1 envOk polRwx [] 4096 4096 6 rfl rfl (by decide) (by decide),
   c10_denial_behaviour.2.1 envOk polToX [mceWasWritable] 8192 4096 PROT_EXEC mceWasWritable
     rfl rfl rfl (by decide) rfl rfl (by decide) (by decide),
   c10_denial_behaviour.2.2 envOk polFromX [mceWasExec] 4096 8192 PROT_WRITE mceWasExec
     rfl rfl rfl (by decide) rfl rfl (by decide) (by decide)⟩

end Mapguard
